import Mathlib

/-!
Shallow embedding of the `input` Rust crate (src/lib.rs, src/inputs.rs):
a typed parse-and-validate pipeline for form fields.  Rust `Result<T, E>`
becomes `Except E T`; the `?` operator becomes an explicit match that
applies the relevant `From` conversion on the error branch; `&'static str`
and boxed `dyn Error` payloads become `String` messages; `BTreeSet` /
`BTreeMap` become lists with an ordered insert.  External calendar types
from the `resolution` crate are opaque value types per the spec and are
modelled as records carrying exactly the data the accessors expose.
-/

namespace Input

/-- Model of `type ValidationResult = Result<(), String>` (src/lib.rs). -/
abbrev ValidationResult := Except String Unit

/-- Model of `enum Error { Parse(Box<dyn Error>), Validation(ValidationErrors) }`
(src/lib.rs).  The boxed parse cause is represented by its message; the
`ValidationErrors` wrapper is represented by its `Vec<String>` payload. -/
inductive Error where
  | parse (cause : String)
  | validation (errors : List String)
deriving DecidableEq, Repr

/-- Model of `type ValidationFn<T> = fn(&T) -> ValidationResult` (src/lib.rs). -/
abbrev ValidationFn (T : Type) := T → ValidationResult

/-- Model of `struct Validations<T> { funcs: Vec<ValidationFn<T>> }` (src/lib.rs). -/
structure Validations (T : Type) where
  funcs : List (ValidationFn T)

/-- `Validations::new` (src/lib.rs). -/
def Validations.new {T : Type} : Validations T := ⟨[]⟩

/-- `Validations::from_vec` (src/lib.rs). -/
def Validations.from_vec {T : Type} (funcs : List (ValidationFn T)) : Validations T :=
  ⟨funcs⟩

/-- `Validations::validate` (src/lib.rs lines 46-58): map every rule over the
input, keep the `Err` payloads, succeed iff none. -/
def Validations.validate {T : Type} (v : Validations T) (input : T) :
    Except (List String) Unit :=
  let errors := (v.funcs.map (fun f => f input)).filterMap
    (fun r => match r with | .error e => some e | .ok _ => none)
  if errors.isEmpty then .ok () else .error errors

/-! ## Integer parsing (Rust `FromStr` for `u32` / `i32`) -/

/-- Accumulate decimal digits; `none` on any non-digit character. -/
def parseDigitsAux : List Char → Nat → Option Nat
  | [], acc => some acc
  | c :: cs, acc =>
    if c.isDigit then parseDigitsAux cs (acc * 10 + (c.toNat - 48)) else none

/-- Parse a nonempty all-digit character list to a `Nat`. -/
def parseNatRaw (cs : List Char) : Option Nat :=
  if cs.isEmpty then none else parseDigitsAux cs 0

def u32Max : Nat := 4294967295

/-- Model of `u32::from_str`: optional leading `+`, decimal digits, range check. -/
def parseU32 (s : String) : Except String Nat :=
  if s.data.isEmpty then .error "cannot parse integer from empty string"
  else
    let ds := match s.data with
      | '+' :: rest => rest
      | cs => cs
    match parseNatRaw ds with
    | none => .error "invalid digit found in string"
    | some n =>
      if n ≤ u32Max then .ok n else .error "number too large to fit in target type"

def i32Max : Int := 2147483647
def i32Min : Int := -2147483648

/-- Model of `i32::from_str`: optional sign, decimal digits, range check. -/
def parseI32 (s : String) : Except String Int :=
  if s.data.isEmpty then .error "cannot parse integer from empty string"
  else
    let signAndDigits : Bool × List Char := match s.data with
      | '-' :: rest => (true, rest)
      | '+' :: rest => (false, rest)
      | cs => (false, cs)
    match parseNatRaw signAndDigits.2 with
    | none => .error "invalid digit found in string"
    | some n =>
      if signAndDigits.1 then
        if -(n : Int) ≥ i32Min then .ok (-(n : Int))
        else .error "number too small to fit in target type"
      else
        if (n : Int) ≤ i32Max then .ok (n : Int)
        else .error "number too large to fit in target type"

/-! ## Claim C1: Validations.validate fan-out -/

/-- The messages of the failing rules, in rule-registration order. -/
def failingMessages {T : Type} (v : Validations T) (input : T) : List String :=
  (v.funcs.map (fun f => f input)).filterMap
    (fun r => match r with | .error e => some e | .ok _ => none)

theorem validate_eq_failingMessages {T : Type} (v : Validations T) (input : T) :
    v.validate input =
      (if (failingMessages v input).isEmpty then .ok ()
       else .error (failingMessages v input)) := rfl

theorem failingMessages_nil_iff {T : Type} (v : Validations T) (input : T) :
    failingMessages v input = [] ↔ ∀ f ∈ v.funcs, f input = .ok () := by
  unfold failingMessages
  induction v.funcs with
  | nil => simp
  | cons f fs ih =>
    simp only [List.map_cons, List.filterMap_cons, List.mem_cons]
    cases h : f input with
    | ok u =>
      cases u
      simp only [ih]
      constructor
      · intro hall g hg
        rcases hg with rfl | hg
        · exact h
        · exact hall g hg
      · intro hall g hg
        exact hall g (Or.inr hg)
    | error e =>
      simp only [List.cons_ne_nil, false_iff]
      intro hall
      have := hall f (Or.inl rfl)
      rw [h] at this
      exact Except.noConfusion this

/-- C1: `Validations::validate` runs every registered rule (its result is
determined by the full list of failure messages, in registration order, with
no short-circuit), returns `Ok` exactly when zero rules fail, and otherwise
returns exactly the failing rules' messages in registration order. -/
theorem validations_validate_spec {T : Type} (v : Validations T) (input : T) :
    (v.validate input = .ok () ↔ ∀ f ∈ v.funcs, f input = .ok ()) ∧
    (∀ msgs, v.validate input = .error msgs ↔
      msgs = failingMessages v input ∧ failingMessages v input ≠ []) := by
  constructor
  · rw [validate_eq_failingMessages]
    by_cases h : (failingMessages v input).isEmpty
    · simp only [h, if_true, true_iff]
      rw [List.isEmpty_iff] at h
      exact (failingMessages_nil_iff v input).mp h
    · simp only [h, if_false]
      rw [List.isEmpty_iff] at h
      constructor
      · intro hcontra; exact Except.noConfusion hcontra
      · intro hall
        exact absurd ((failingMessages_nil_iff v input).mpr hall) h
  · intro msgs
    rw [validate_eq_failingMessages]
    by_cases h : (failingMessages v input).isEmpty
    · rw [List.isEmpty_iff] at h
      simp [h]
    · rw [List.isEmpty_iff] at h
      simp only [List.isEmpty_iff, if_neg h]
      constructor
      · intro heq
        injection heq with h2
        exact ⟨h2.symm, h⟩
      · rintro ⟨rfl, -⟩
        rfl

/-! ## Atomic fields -/

/-- Model of `struct Scalar<O, E> { input: String, validations: Validations<O> }`
(src/inputs.rs).  The `FromStr` implementation for `O` is passed to `parse`
explicitly as `parseO`; the `Display` implementation is passed to `new` /
`set_value` as `toStr`. -/
structure Scalar (O : Type) where
  input : String
  validations : Validations O

/-- `Scalar::new` (src/inputs.rs). -/
def Scalar.new {O : Type} (toStr : O → String) (data : O)
    (validations : Validations O) : Scalar O :=
  ⟨toStr data, validations⟩

/-- `Scalar::set_value` (src/inputs.rs lines 194-196). -/
def Scalar.set_value {O : Type} (toStr : O → String) (f : Scalar O) (data : O) :
    Scalar O :=
  { f with input := toStr data }

/-- `Scalar::update` (src/inputs.rs). -/
def Scalar.update {O : Type} (f : Scalar O) (input : String) : Scalar O :=
  { f with input := input }

/-- `Scalar::parse` (src/inputs.rs lines 200-204): `?` on the `FromStr` error
wraps it as `Error::Parse`; `?` on `validate` wraps as `Error::Validation`. -/
def Scalar.parse {O : Type} (parseO : String → Except String O) (f : Scalar O) :
    Except Error O :=
  match parseO f.input with
  | .error e => .error (Error.parse e)
  | .ok parsed =>
    match f.validations.validate parsed with
    | .error es => .error (Error.validation es)
    | .ok _ => .ok parsed

/-- Message of `SelectError` (src/inputs.rs lines 20-28). -/
def selectErrorMsg (selected : String) : String :=
  "Value " ++ selected ++ " is not in the list of allowed options"

/-- Model of `struct Select<E, O> { input: String, options: BTreeSet<O> }`
(src/inputs.rs); the `BTreeSet` is modelled by its element list (only
membership is consulted by `parse`). -/
structure Select (O : Type) where
  input : String
  options : List O

/-- `Select::set_value` (src/inputs.rs lines 71-73). -/
def Select.set_value {O : Type} (toStr : O → String) (f : Select O) (data : O) :
    Select O :=
  { f with input := toStr data }

/-- `Select::update` (src/inputs.rs). -/
def Select.update {O : Type} (f : Select O) (input : String) : Select O :=
  { f with input := input }

/-- `Select::parse` (src/inputs.rs lines 77-87): parse, then membership test in
the fixed option set; a missing member yields a `SelectError`, which the
blanket `impl From<T: Error> for Error` wraps as `Error::Parse`. -/
def Select.parse {O : Type} [DecidableEq O] (parseO : String → Except String O)
    (f : Select O) : Except Error O :=
  match parseO f.input with
  | .error e => .error (Error.parse e)
  | .ok parsed =>
    if parsed ∈ f.options then .ok parsed
    else .error (Error.parse (selectErrorMsg f.input))

/-- Model of `struct RelationalSelect<E, K, V> { input: String, options: BTreeMap<K, V> }`
(src/inputs.rs); the `BTreeMap` is modelled by its entry list (only
`contains_key` is consulted by `parse`). -/
structure RelationalSelect (K V : Type) where
  input : String
  options : List (K × V)

/-- `RelationalSelect::set_value` (src/inputs.rs lines 130-132). -/
def RelationalSelect.set_value {K V : Type} (toStr : K → String)
    (f : RelationalSelect K V) (data : K) : RelationalSelect K V :=
  { f with input := toStr data }

/-- `RelationalSelect::update` (src/inputs.rs). -/
def RelationalSelect.update {K V : Type} (f : RelationalSelect K V)
    (input : String) : RelationalSelect K V :=
  { f with input := input }

/-- `RelationalSelect::parse` (src/inputs.rs lines 136-147): parse the key,
then `contains_key` lookup; a missing key yields a `SelectError` wrapped as
`Error::Parse` by the blanket `From` impl. -/
def RelationalSelect.parse {K V : Type} [DecidableEq K]
    (parseK : String → Except String K) (f : RelationalSelect K V) :
    Except Error K :=
  match parseK f.input with
  | .error e => .error (Error.parse e)
  | .ok key =>
    if key ∈ f.options.map Prod.fst then .ok key
    else .error (Error.parse (selectErrorMsg f.input))

/-! ## Opaque `resolution` crate value types (per spec §1/§6 these are external
collaborators supporting construction from (year, ordinal) and accessors). -/

/-- Model of `resolution::Year`: wraps the year number (`i32`). -/
structure ResYear where
  yearNum : Int
deriving DecidableEq, Repr

/-- `resolution::Year::new`. -/
def ResYear.new (y : Int) : ResYear := ⟨y⟩

/-- `resolution::Year::year_num`. -/
def ResYear.year_num (y : ResYear) : Int := y.yearNum

/-- Model of `chrono::NaiveDate` as the (year, month, day) triple it is
constructed from via `from_ymd`. -/
structure NaiveDateYmd where
  year : Int
  month : Nat
  day : Nat
deriving DecidableEq, Repr

/-- `chrono::NaiveDate::from_ymd`. -/
def NaiveDateYmd.from_ymd (y : Int) (m d : Nat) : NaiveDateYmd := ⟨y, m, d⟩

/-- Model of `resolution::Month`: determined by year and month number. -/
structure ResMonth where
  yearNum : Int
  monthNum : Nat
deriving DecidableEq, Repr

/-- `resolution::Month::from_date`. -/
def ResMonth.from_date (d : NaiveDateYmd) : ResMonth := ⟨d.year, d.month⟩

/-- `resolution::Month::year`. -/
def ResMonth.year (m : ResMonth) : ResYear := ⟨m.yearNum⟩

/-- `resolution::Month::month_num`. -/
def ResMonth.month_num (m : ResMonth) : Nat := m.monthNum

/-! ## Year and RelativeMonth fields -/

/-- Model of `struct Year { input: String, validations: Validations<resolution::Year> }`
(src/inputs.rs). -/
structure YearField where
  input : String
  validations : Validations ResYear

/-- `Year::new` (src/inputs.rs): renders via `resolution::Year`'s `Display`,
which shows the year number. -/
def YearField.new (data : ResYear) (validations : Validations ResYear) :
    YearField :=
  ⟨toString data.yearNum, validations⟩

/-- `<Year as UserInput>::set_value` (src/inputs.rs lines 338-340). -/
def YearField.set_value (f : YearField) (data : ResYear) : YearField :=
  { f with input := toString data.year_num }

/-- `<Year as UserInput>::update` (src/inputs.rs). -/
def YearField.update (f : YearField) (input : String) : YearField :=
  { f with input := input }

/-- `<Year as UserInput>::parse` (src/inputs.rs lines 344-348). -/
def YearField.parse (f : YearField) : Except Error ResYear :=
  match parseI32 f.input with
  | .error e => .error (Error.parse e)
  | .ok n =>
    let parsed := ResYear.new n
    match f.validations.validate parsed with
    | .error es => .error (Error.validation es)
    | .ok _ => .ok parsed

/-- The range-check message of `RelativeMonth::parse` (src/inputs.rs lines 387-390). -/
def monthRangeMsg (n : Nat) : String :=
  "Month number should be between 1 and 12 but was " ++ toString n

/-- Model of `struct RelativeMonth { input: String, validations: Validations<u32> }`
(src/inputs.rs). -/
structure RelativeMonth where
  input : String
  validations : Validations Nat

/-- `RelativeMonth::new` (src/inputs.rs). -/
def RelativeMonth.new (data : Nat) (validations : Validations Nat) :
    RelativeMonth :=
  ⟨toString data, validations⟩

/-- `<RelativeMonth as UserInput>::set_value` (src/inputs.rs lines 377-379). -/
def RelativeMonth.set_value (f : RelativeMonth) (data : Nat) : RelativeMonth :=
  { f with input := toString data }

/-- `<RelativeMonth as UserInput>::update` (src/inputs.rs). -/
def RelativeMonth.update (f : RelativeMonth) (input : String) : RelativeMonth :=
  { f with input := input }

/-- `<RelativeMonth as UserInput>::parse` (src/inputs.rs lines 383-396):
parse the integer, range-check 1..=12 (early `Error::Validation` return),
then run the registered rule set. -/
def RelativeMonth.parse (f : RelativeMonth) : Except Error Nat :=
  match parseU32 f.input with
  | .error e => .error (Error.parse e)
  | .ok parsed =>
    if parsed < 1 ∨ parsed > 12 then
      .error (Error.validation [monthRangeMsg parsed])
    else
      match f.validations.validate parsed with
      | .error es => .error (Error.validation es)
      | .ok _ => .ok parsed

/-! ## Month composite field -/

/-- Model of `struct Month { year: Year, month: RelativeMonth, validations: Validations<resolution::Month> }`
(src/inputs.rs). -/
structure MonthField where
  year : YearField
  month : RelativeMonth
  validations : Validations ResMonth

/-- `<Month as UserInput>::set_value` (src/inputs.rs lines 444-447). -/
def MonthField.set_value (f : MonthField) (data : ResMonth) : MonthField :=
  { f with
    year := f.year.set_value data.year
    month := f.month.set_value data.month_num }

/-- Model of `enum MonthMsg` (src/inputs.rs). -/
inductive MonthMsg where
  | year (s : String)
  | month (s : String)

/-- `<Month as UserInput>::update` (src/inputs.rs lines 448-453): routes by
tag to exactly one child. -/
def MonthField.update (f : MonthField) (input : MonthMsg) : MonthField :=
  match input with
  | .year y => { f with year := { f.year with input := y } }
  | .month m => { f with month := { f.month with input := m } }

/-- `<Month as UserInput>::parse` (src/inputs.rs lines 454-461): `?` on year,
`?` on month, assemble from `from_ymd(year, month, 1)`, then composite rules. -/
def MonthField.parse (f : MonthField) : Except Error ResMonth :=
  match f.year.parse with
  | .error e => .error e
  | .ok year =>
    match f.month.parse with
    | .error e => .error e
    | .ok month =>
      let parsed := ResMonth.from_date (NaiveDateYmd.from_ymd year.year_num month 1)
      match f.validations.validate parsed with
      | .error es => .error (Error.validation es)
      | .ok _ => .ok parsed

/-! ## TimeRange composite field -/

/-- Model of `resolution::TimeRange<R>`: opaque per spec §6, determined by its
starting period and its length in resolution units.  `len()` returns a signed
integer (the source applies `u32::try_from` to it, which can fail in both
directions). -/
structure ResTimeRange (R : Type) where
  start : R
  len : Int
deriving DecidableEq, Repr

/-- `resolution::TimeRange::new(start, len: u32)`. -/
def ResTimeRange.new {R : Type} (start : R) (len : Nat) : ResTimeRange R :=
  ⟨start, (len : Int)⟩

/-- Model of `u32::try_from` on a signed integer: `none` is the `Err` case
(which `.unwrap()` turns into a panic). -/
def u32_try_from (n : Int) : Option Nat :=
  if 0 ≤ n ∧ n ≤ (u32Max : Int) then some n.toNat else none

/-- `greater_than_zero` (src/inputs.rs lines 664-670). -/
def greater_than_zero (input : Nat) : ValidationResult :=
  if input > 0 then .ok () else .error "Input must be greater than zero"

/-- Model of `struct TimeRange<I, R>` (src/inputs.rs lines 652-662).  The
generic child `DateResolution<I, R>` (which delegates `parse`/`set_value`
directly to its inner `I: UserInput`, src/inputs.rs lines 634-650) is modelled
by a child state of type `σ` together with the child's `parse` and `set_value`
functions, standing for the `UserInput` trait dispatch. -/
structure TimeRangeField (σ R : Type) where
  date_resolution : σ
  childParse : σ → Except Error R
  childSet : σ → R → σ
  length : Scalar Nat
  length_validations : Validations Nat
  range_validations : Validations (ResTimeRange R)

/-- `TimeRange::new` (src/inputs.rs lines 677-695).  `u32::try_from(data.len()).unwrap()`
panics on `Err`; the panic is modelled by `none`.  The length child is
`Integer::new(&len, Validations::from_vec(vec![greater_than_zero]))`. -/
def TimeRangeField.new {σ R : Type} (data : ResTimeRange R) (dr_input : σ)
    (childParse : σ → Except Error R) (childSet : σ → R → σ)
    (length_validations : Validations Nat)
    (range_validations : Validations (ResTimeRange R)) :
    Option (TimeRangeField σ R) :=
  let date_resolution := childSet dr_input data.start
  match u32_try_from data.len with
  | none => none
  | some n =>
    some { date_resolution := date_resolution
           childParse := childParse
           childSet := childSet
           length := Scalar.new toString n (Validations.from_vec [greater_than_zero])
           length_validations := length_validations
           range_validations := range_validations }

/-- `<TimeRange as UserInput>::set_value` (src/inputs.rs lines 738-741):
`self.length.set_value(u32::try_from(data.len()).unwrap()); self.date_resolution.set_value(data.start())`.
The `.unwrap()` panic is modelled by `none`. -/
def TimeRangeField.set_value {σ R : Type} (f : TimeRangeField σ R)
    (data : ResTimeRange R) : Option (TimeRangeField σ R) :=
  match u32_try_from data.len with
  | none => none
  | some n =>
    some { f with
           length := f.length.set_value toString n
           date_resolution := f.childSet f.date_resolution data.start }

/-- `<TimeRange as UserInput>::parse` (src/inputs.rs lines 748-755): `?` on the
start child, `?` on the length child (whose own rule set holds the built-in
`greater_than_zero` when built by `new`/`default`), then `length_validations`,
then assemble the range and run `range_validations`. -/
def TimeRangeField.parse {σ R : Type} (f : TimeRangeField σ R) :
    Except Error (ResTimeRange R) :=
  match f.childParse f.date_resolution with
  | .error e => .error e
  | .ok start =>
    match f.length.parse parseU32 with
    | .error e => .error e
    | .ok len =>
      match f.length_validations.validate len with
      | .error es => .error (Error.validation es)
      | .ok _ =>
        let range := ResTimeRange.new start len
        match f.range_validations.validate range with
        | .error es => .error (Error.validation es)
        | .ok _ => .ok range

/-! ## FormError and Form aggregation -/

/-- Ordered insert into a name-keyed association list, modelling
`BTreeMap::insert` on `&'static str` keys (replaces an existing binding,
keeps keys strictly ascending). -/
def mapInsert (k : String) (v : Error) : List (String × Error) → List (String × Error)
  | [] => [(k, v)]
  | (k', v') :: rest =>
    if k < k' then (k, v) :: (k', v') :: rest
    else if k = k' then (k, v) :: rest
    else (k', v') :: mapInsert k v rest

/-- Model of `struct FormError { errors: BTreeMap<&'static str, Error> }`
(src/lib.rs lines 79-82). -/
structure FormError where
  errors : List (String × Error)

/-- `FormError::new` (src/lib.rs). -/
def FormError.new : FormError := ⟨[]⟩

/-- `FormError::is_empty` (src/lib.rs lines 101-103). -/
def FormError.is_empty (fe : FormError) : Bool := fe.errors.isEmpty

/-- `FormError::add_result` (src/lib.rs lines 109-113): insert the error under
the field name iff the result is `Err`. -/
def FormError.add_result {T : Type} (fe : FormError) (field : String)
    (result : Except Error T) : FormError :=
  match result with
  | .error err => ⟨mapInsert field err fe.errors⟩
  | .ok _ => fe

/-- Folding `add_result` over every named field's parse result. -/
def formCollect {T : Type} (fields : List (String × Except Error T)) : FormError :=
  fields.foldl (fun acc p => acc.add_result p.1 p.2) FormError.new

/-- Modelled from the spec: no concrete `Form` implementation ships under
src/ (only the `Form` trait, src/lib.rs lines 193-198; implementations come
from derive tooling that is out of scope).  Per spec §4.4, `parse()` attempts
`parse()` on every named field unconditionally, collecting failures into a
name-keyed error map via `FormError::add_result`, and returns the assembled
outputs only if the map is empty. -/
def formParse {T : Type} (fields : List (String × Except Error T)) :
    Except FormError (List (String × T)) :=
  let fe := formCollect fields
  if fe.is_empty then
    .ok (fields.filterMap (fun p => match p.2 with
      | .ok a => some (p.1, a)
      | .error _ => none))
  else .error fe

/-! ## Decidable equality for `Except` results (for concrete evaluations) -/

def exceptDecEq {ε α : Type} [DecidableEq ε] [DecidableEq α] :
    (a b : Except ε α) → Decidable (a = b)
  | .ok a, .ok b =>
    if h : a = b then isTrue (by rw [h])
    else isFalse (fun hc => h (Except.ok.inj hc))
  | .ok _, .error _ => isFalse (fun hc => Except.noConfusion hc)
  | .error _, .ok _ => isFalse (fun hc => Except.noConfusion hc)
  | .error e, .error e2 =>
    if h : e = e2 then isTrue (by rw [h])
    else isFalse (fun hc => h (Except.error.inj hc))

instance {ε α : Type} [DecidableEq ε] [DecidableEq α] : DecidableEq (Except ε α) :=
  exceptDecEq

/-! ## Claim C3: one error kind per parse attempt -/

/-- Claim C3: a single `Scalar::parse` call produces at most one error kind:
a `ParseFailure` exactly when text conversion fails (in which case the
registered rule set is irrelevant — the result is the same for every rule
set), a `ValidationFailure` only for a value that parsed successfully, and a
success implies both conversion and validation succeeded. -/
theorem scalar_parse_error_kinds {O : Type} (parseO : String → Except String O)
    (f : Scalar O) :
    (∀ c, parseO f.input = .error c →
      ∀ v : Validations O, (Scalar.mk f.input v).parse parseO = .error (Error.parse c)) ∧
    (∀ msgs, f.parse parseO = .error (Error.validation msgs) →
      ∃ o, parseO f.input = .ok o ∧ f.validations.validate o = .error msgs) ∧
    (∀ o, f.parse parseO = .ok o →
      parseO f.input = .ok o ∧ f.validations.validate o = .ok ()) := by
  refine ⟨?_, ?_, ?_⟩
  · intro c hc v
    simp only [Scalar.parse, hc]
  · intro msgs hmsgs
    unfold Scalar.parse at hmsgs
    cases hp : parseO f.input with
    | error e => rw [hp] at hmsgs; simp at hmsgs
    | ok o =>
      rw [hp] at hmsgs
      dsimp only at hmsgs
      refine ⟨o, rfl, ?_⟩
      cases hv : f.validations.validate o with
      | error es =>
        simp only [hv, Except.error.injEq, Error.validation.injEq] at hmsgs
        rw [hmsgs]
      | ok u => cases u; simp only [hv] at hmsgs; exact Except.noConfusion hmsgs
  · intro o ho
    unfold Scalar.parse at ho
    cases hp : parseO f.input with
    | error e => rw [hp] at ho; simp at ho
    | ok o2 =>
      rw [hp] at ho
      dsimp only at ho
      cases hv : f.validations.validate o2 with
      | error es => simp only [hv] at ho; exact Except.noConfusion ho
      | ok u =>
        cases u
        simp only [hv, Except.ok.injEq] at ho
        subst ho
        exact ⟨rfl, hv⟩

/-- Witness for C3 on concrete fields: a parse failure with any rule set, a
validation failure on a value that parsed, and a clean success. -/
theorem scalar_parse_error_kinds_witness :
    (Scalar.mk "abc" Validations.new).parse parseU32 =
      .error (Error.parse "invalid digit found in string") ∧
    (∃ o, parseU32 "0" = .ok o ∧
      (Validations.from_vec [greater_than_zero]).validate o =
        .error ["Input must be greater than zero"]) ∧
    (parseU32 "5" = .ok 5 ∧
      (Validations.from_vec [greater_than_zero]).validate 5 = .ok ()) := by
  refine ⟨?_, ?_, ?_⟩
  · exact (scalar_parse_error_kinds parseU32 (Scalar.mk "abc" Validations.new)).1
      "invalid digit found in string" rfl Validations.new
  · exact (scalar_parse_error_kinds parseU32
      (Scalar.mk "0" (Validations.from_vec [greater_than_zero]))).2.1
      ["Input must be greater than zero"] rfl
  · exact (scalar_parse_error_kinds parseU32
      (Scalar.mk "5" (Validations.from_vec [greater_than_zero]))).2.2 5 rfl

/-! ## Claim C4: RelativeMonth range check -/

/-- Claim C4: `RelativeMonth::parse` on raw text parsing to an integer outside
1..=12 fails with a validation-style error carrying exactly the range-check
message naming the offending value, and does so identically for every
registered rule set (the check is raised on the parse path before the rules
run); raw text parsing to an integer in 1..=12 passes the range check and
proceeds to the registered rule set. -/
theorem relative_month_range_check (f : RelativeMonth) :
    (∀ n, parseU32 f.input = .ok n → (n < 1 ∨ 12 < n) →
      ∀ v : Validations Nat,
        (RelativeMonth.mk f.input v).parse =
          .error (Error.validation
            ["Month number should be between 1 and 12 but was " ++ toString n])) ∧
    (∀ n, parseU32 f.input = .ok n → 1 ≤ n → n ≤ 12 →
      f.parse =
        match f.validations.validate n with
        | .error es => .error (Error.validation es)
        | .ok _ => .ok n) := by
  constructor
  · intro n hn hrange v
    unfold RelativeMonth.parse
    simp only [hn]
    rw [if_pos]
    · rfl
    · omega
  · intro n hn h1 h12
    unfold RelativeMonth.parse
    simp only [hn]
    rw [if_neg]
    omega

/-- Witness for C4: inputs 13 and 0 fail the range check with the exact
message, input 2 passes the range check and succeeds with an empty rule set. -/
theorem relative_month_range_check_witness :
    (RelativeMonth.mk "13" Validations.new).parse =
      .error (Error.validation ["Month number should be between 1 and 12 but was 13"]) ∧
    (RelativeMonth.mk "0" Validations.new).parse =
      .error (Error.validation ["Month number should be between 1 and 12 but was 0"]) ∧
    (RelativeMonth.mk "2" Validations.new).parse = .ok 2 := by
  refine ⟨?_, ?_, ?_⟩
  · exact (relative_month_range_check (RelativeMonth.mk "13" Validations.new)).1
      13 rfl (by omega) Validations.new
  · exact (relative_month_range_check (RelativeMonth.mk "0" Validations.new)).1
      0 rfl (by omega) Validations.new
  · exact ((relative_month_range_check (RelativeMonth.mk "2" Validations.new)).2
      2 rfl (by omega) (by omega)).trans rfl

/-! ## Claim C2: Month composite fail-fast -/

/-- Claim C2: `Month::parse` evaluates children left-to-right and fail-fast:
a failing year parse is returned unchanged for every month child and every
composite-level rule set (so neither is evaluated); with the year parsed a
failing month parse is returned unchanged for every composite-level rule set;
and only when both children succeed is the value assembled from
`from_ymd(year, month, 1)` and the composite-level rule set run on it. -/
theorem month_parse_spec (f : MonthField) :
    (∀ e, f.year.parse = .error e →
      ∀ (m : RelativeMonth) (v : Validations ResMonth),
        (MonthField.mk f.year m v).parse = .error e) ∧
    (∀ y e, f.year.parse = .ok y → f.month.parse = .error e →
      ∀ v : Validations ResMonth,
        (MonthField.mk f.year f.month v).parse = .error e) ∧
    (∀ y m, f.year.parse = .ok y → f.month.parse = .ok m →
      f.parse =
        match f.validations.validate
            (ResMonth.from_date (NaiveDateYmd.from_ymd y.year_num m 1)) with
        | .error es => .error (Error.validation es)
        | .ok _ =>
          .ok (ResMonth.from_date (NaiveDateYmd.from_ymd y.year_num m 1))) := by
  refine ⟨?_, ?_, ?_⟩
  · intro e he m v
    unfold MonthField.parse
    simp only [he]
  · intro y e hy hm v
    unfold MonthField.parse
    simp only [hy, hm]
  · intro y m hy hm
    unfold MonthField.parse
    simp only [hy, hm]

/-- Witness for C2: year 2024 and month 2 assemble to February 2024; a
non-numeric year makes the composite fail with exactly the year's parse
error, with the month child's raw text also invalid. -/
theorem month_parse_spec_witness :
    (MonthField.mk (YearField.mk "2024" Validations.new)
        (RelativeMonth.mk "2" Validations.new) Validations.new).parse =
      .ok ⟨2024, 2⟩ ∧
    (MonthField.mk (YearField.mk "20x4" Validations.new)
        (RelativeMonth.mk "nope" Validations.new) Validations.new).parse =
      .error (Error.parse "invalid digit found in string") := by
  constructor
  · exact ((month_parse_spec (MonthField.mk (YearField.mk "2024" Validations.new)
      (RelativeMonth.mk "2" Validations.new) Validations.new)).2.2
      ⟨2024⟩ 2 rfl rfl).trans rfl
  · exact (month_parse_spec (MonthField.mk (YearField.mk "20x4" Validations.new)
      (RelativeMonth.mk "nope" Validations.new) Validations.new)).1
      (Error.parse "invalid digit found in string") rfl
      (RelativeMonth.mk "nope" Validations.new) Validations.new

/-! ## Claim C5: TimeRange composite -/

/-- A rule that is registered and fails contributes its message to the
collected failure list. -/
theorem mem_failingMessages {T : Type} (v : Validations T) (input : T)
    (g : ValidationFn T) (hg : g ∈ v.funcs) (m : String)
    (hm : g input = .error m) : m ∈ failingMessages v input := by
  unfold failingMessages
  rw [List.mem_filterMap]
  refine ⟨g input, List.mem_map_of_mem _ hg, ?_⟩
  rw [hm]

/-- Claim C5: `TimeRange::parse` parses the start child first (returning its
error on failure), then the length child — whose own rule set carries the
built-in `greater_than_zero` rule when built by `new`/`default`, so raw length
0 fails with a validation error containing its message even when the start
parses — and with both children parsed and all rule sets passing it returns
exactly the range assembled from (start, length), whose length is the parsed
length and whose start is the parsed start. -/
theorem time_range_parse_spec {σ R : Type} (f : TimeRangeField σ R) :
    (∀ e, f.childParse f.date_resolution = .error e → f.parse = .error e) ∧
    (∀ s e, f.childParse f.date_resolution = .ok s →
      f.length.parse parseU32 = .error e → f.parse = .error e) ∧
    (∀ s, f.childParse f.date_resolution = .ok s → f.length.input = "0" →
      greater_than_zero ∈ f.length.validations.funcs →
      ∃ msgs, f.parse = .error (Error.validation msgs) ∧
        "Input must be greater than zero" ∈ msgs) ∧
    (∀ s n, f.childParse f.date_resolution = .ok s →
      f.length.parse parseU32 = .ok n →
      f.length_validations.validate n = .ok () →
      f.range_validations.validate (ResTimeRange.new s n) = .ok () →
      f.parse = .ok (ResTimeRange.new s n) ∧
        (ResTimeRange.new s n).len = (n : Int) ∧ (ResTimeRange.new s n).start = s) := by
  refine ⟨?_, ?_, ?_, ?_⟩
  · intro e he
    unfold TimeRangeField.parse
    simp only [he]
  · intro s e hs he
    unfold TimeRangeField.parse
    simp only [hs, he]
  · intro s hs h0 hg
    have hz : greater_than_zero 0 = .error "Input must be greater than zero" := rfl
    have hmem : "Input must be greater than zero" ∈ failingMessages f.length.validations 0 :=
      mem_failingMessages f.length.validations 0 greater_than_zero hg _ hz
    have hne : failingMessages f.length.validations 0 ≠ [] :=
      List.ne_nil_of_mem hmem
    have hval : f.length.validations.validate 0 =
        .error (failingMessages f.length.validations 0) := by
      rw [validate_eq_failingMessages, if_neg]
      rw [List.isEmpty_iff]
      exact hne
    have hlen : f.length.parse parseU32 =
        .error (Error.validation (failingMessages f.length.validations 0)) := by
      unfold Scalar.parse
      rw [h0]
      have hp0 : parseU32 "0" = .ok 0 := rfl
      rw [hp0]
      dsimp only
      rw [hval]
    refine ⟨failingMessages f.length.validations 0, ?_, hmem⟩
    unfold TimeRangeField.parse
    simp only [hs, hlen]
  · intro s n hs hn hlv hrv
    refine ⟨?_, rfl, rfl⟩
    unfold TimeRangeField.parse
    simp only [hs, hn, hlv, hrv]

/-- Concrete TimeRange instantiation for the witness: the start child is a
Year field (a `resolution::Year` is a date resolution), the length child is
built the way `TimeRange::new`/`default` builds it. -/
def exTimeRange (lengthRaw : String) : TimeRangeField YearField ResYear :=
  { date_resolution := ⟨"2024", Validations.new⟩
    childParse := YearField.parse
    childSet := YearField.set_value
    length := ⟨lengthRaw, Validations.from_vec [greater_than_zero]⟩
    length_validations := Validations.new
    range_validations := Validations.new }

/-- Witness for C5: with a valid start, raw length 0 fails the built-in
greater-than-zero rule, and raw length 3 yields the range of length 3 at the
parsed start. -/
theorem time_range_parse_spec_witness :
    (∃ msgs, (exTimeRange "0").parse = .error (Error.validation msgs) ∧
      "Input must be greater than zero" ∈ msgs) ∧
    (exTimeRange "3").parse = .ok (ResTimeRange.new ⟨2024⟩ 3) := by
  constructor
  · exact (time_range_parse_spec (exTimeRange "0")).2.2.1 ⟨2024⟩ rfl rfl
      (List.mem_singleton.mpr rfl)
  · exact ((time_range_parse_spec (exTimeRange "3")).2.2.2 ⟨2024⟩ 3
      rfl rfl rfl rfl).1

/-! ## Claim C7: Select and RelationalSelect membership -/

/-- Claim C7: `Select::parse` succeeds with the parsed candidate exactly when
the candidate is a member of the fixed option set, and `RelationalSelect::parse`
succeeds with the parsed key exactly when the key exists in the option
mapping; a parsed candidate/key outside the options fails with the
`SelectError` message naming the raw input. -/
theorem select_parse_spec {O K V : Type} [DecidableEq O] [DecidableEq K]
    (parseO : String → Except String O) (parseK : String → Except String K)
    (f : Select O) (g : RelationalSelect K V) :
    (∀ v, f.parse parseO = .ok v ↔ parseO f.input = .ok v ∧ v ∈ f.options) ∧
    (∀ v, parseO f.input = .ok v → v ∉ f.options →
      f.parse parseO = .error (Error.parse (selectErrorMsg f.input))) ∧
    (∀ k, g.parse parseK = .ok k ↔
      parseK g.input = .ok k ∧ k ∈ g.options.map Prod.fst) ∧
    (∀ k, parseK g.input = .ok k → k ∉ g.options.map Prod.fst →
      g.parse parseK = .error (Error.parse (selectErrorMsg g.input))) := by
  refine ⟨?_, ?_, ?_, ?_⟩
  · intro v
    unfold Select.parse
    cases hp : parseO f.input with
    | error e => simp
    | ok w =>
      dsimp only
      by_cases hw : w ∈ f.options
      · simp only [if_pos hw, Except.ok.injEq]
        constructor
        · rintro rfl; exact ⟨rfl, hw⟩
        · rintro ⟨h1, -⟩; exact h1
      · simp only [if_neg hw]
        constructor
        · intro hc; exact Except.noConfusion hc
        · rintro ⟨h1, h2⟩
          have h3 := Except.ok.inj h1
          subst h3
          exact absurd h2 hw
  · intro v hv hnot
    unfold Select.parse
    simp only [hv]
    rw [if_neg hnot]
  · intro k
    unfold RelationalSelect.parse
    cases hp : parseK g.input with
    | error e => simp
    | ok w =>
      dsimp only
      by_cases hw : w ∈ g.options.map Prod.fst
      · simp only [if_pos hw, Except.ok.injEq]
        constructor
        · rintro rfl; exact ⟨rfl, hw⟩
        · rintro ⟨h1, -⟩; exact h1
      · simp only [if_neg hw]
        constructor
        · intro hc; exact Except.noConfusion hc
        · rintro ⟨h1, h2⟩
          have h3 := Except.ok.inj h1
          subst h3
          exact absurd h2 hw
  · intro k hk hnot
    unfold RelationalSelect.parse
    simp only [hk]
    rw [if_neg hnot]

/-- Option map `{1: Jan, 2: Feb}` from the spec example. -/
def exRelSelect (raw : String) : RelationalSelect Nat String :=
  ⟨raw, [(1, "Jan"), (2, "Feb")]⟩

/-- Witness for C7: in the map `{1: Jan, 2: Feb}`, raw 1 parses to key 1 and
raw 3 fails with the message naming 3; a plain Select behaves alike on its
fixed option set. -/
theorem select_parse_spec_witness :
    (exRelSelect "1").parse parseU32 = .ok 1 ∧
    (exRelSelect "3").parse parseU32 =
      .error (Error.parse "Value 3 is not in the list of allowed options") ∧
    (Select.mk "7" [5, 7]).parse parseU32 = .ok 7 ∧
    (Select.mk "6" [5, 7]).parse parseU32 =
      .error (Error.parse "Value 6 is not in the list of allowed options") := by
  refine ⟨?_, ?_, ?_, ?_⟩
  · exact ((select_parse_spec parseU32 parseU32 (Select.mk "7" [5, 7])
      (exRelSelect "1")).2.2.1 1).mpr ⟨rfl, by decide⟩
  · exact (select_parse_spec parseU32 parseU32 (Select.mk "7" [5, 7])
      (exRelSelect "3")).2.2.2 3 rfl (by decide)
  · exact ((select_parse_spec parseU32 parseU32 (Select.mk "7" [5, 7])
      (exRelSelect "1")).1 7).mpr ⟨rfl, by decide⟩
  · exact (select_parse_spec parseU32 parseU32 (Select.mk "6" [5, 7])
      (exRelSelect "1")).2.1 6 rfl (by decide)

/-! ## Claim C10: TimeRange::new / set_value unwrap panics -/

/-- Claim C10: `TimeRange::new` and `TimeRange::set_value` both unwrap
`u32::try_from(data.len())`, so they abort (modelled as `none`) exactly when
the range length is negative or exceeds `u32::MAX`, and complete normally
(return `some`) for every range whose length fits in `u32`. -/
theorem time_range_new_set_value_panic {σ R : Type} (dr_input : σ)
    (childParse : σ → Except Error R) (childSet : σ → R → σ)
    (lv : Validations Nat) (rv : Validations (ResTimeRange R))
    (f : TimeRangeField σ R) (data : ResTimeRange R) :
    ((TimeRangeField.new data dr_input childParse childSet lv rv).isSome ↔
      0 ≤ data.len ∧ data.len ≤ (u32Max : Int)) ∧
    ((f.set_value data).isSome ↔ 0 ≤ data.len ∧ data.len ≤ (u32Max : Int)) := by
  constructor
  · unfold TimeRangeField.new u32_try_from
    by_cases h : 0 ≤ data.len ∧ data.len ≤ (u32Max : Int)
    · rw [if_pos h]
      simpa using h
    · rw [if_neg h]
      simpa using h
  · unfold TimeRangeField.set_value u32_try_from
    by_cases h : 0 ≤ data.len ∧ data.len ≤ (u32Max : Int)
    · rw [if_pos h]
      simpa using h
    · rw [if_neg h]
      simpa using h

/-! ## Claim C6: set_value / parse round-trip -/

/-- Counterexample to C6 as stated: the length field that `TimeRange` itself
builds — `Integer::new(.., Validations::from_vec(vec![greater_than_zero]))` —
does not round-trip the representable value 0: `set_value(0)` followed by
`parse()` returns a validation failure, not `Ok(0)`. -/
theorem roundtrip_counterexample :
    ((Scalar.mk "1" (Validations.from_vec [greater_than_zero])).set_value
        toString 0).parse parseU32 ≠ .ok 0 := by
  intro h
  exact Except.noConfusion (h.symm.trans rfl)

/-- Claim C6 (amended): `set_value(v)` followed by `parse()` returns `Ok(v)`
provided the textual rendering of `v` parses back to `v` and `v` passes the
field's validation rules — and, for a Select (resp. RelationalSelect) field,
`v` is a member of the option set (resp. a key of the option map). -/
theorem roundtrip_amended {O : Type} [DecidableEq O] (toStr : O → String)
    (parseO : String → Except String O) (v : O)
    (hround : parseO (toStr v) = .ok v) :
    (∀ f : Scalar O, f.validations.validate v = .ok () →
      (f.set_value toStr v).parse parseO = .ok v) ∧
    (∀ f : Select O, v ∈ f.options →
      (f.set_value toStr v).parse parseO = .ok v) ∧
    (∀ (V : Type) (g : RelationalSelect O V), v ∈ g.options.map Prod.fst →
      (g.set_value toStr v).parse parseO = .ok v) := by
  refine ⟨?_, ?_, ?_⟩
  · intro f hv
    unfold Scalar.parse Scalar.set_value
    simp only [hround, hv]
  · intro f hv
    unfold Select.parse Select.set_value
    simp only [hround]
    rw [if_pos hv]
  · intro V g hv
    unfold RelationalSelect.parse RelationalSelect.set_value
    simp only [hround]
    rw [if_pos hv]

/-- Witness for the amended C6 at value 5: a rule-free integer field, a
Select whose options contain 5, and a RelationalSelect whose map has key 5. -/
theorem roundtrip_amended_witness :
    ((Scalar.mk "0" Validations.new).set_value toString 5).parse parseU32 =
      .ok 5 ∧
    ((Select.mk "0" [2, 5]).set_value toString 5).parse parseU32 = .ok 5 ∧
    ((RelationalSelect.mk "0" [(5, "five")]).set_value toString 5).parse
      parseU32 = .ok 5 := by
  refine ⟨?_, ?_, ?_⟩
  · exact (roundtrip_amended toString parseU32 5 (by decide)).1
      (Scalar.mk "0" Validations.new) rfl
  · exact (roundtrip_amended toString parseU32 5 (by decide)).2.1
      (Select.mk "0" [2, 5]) (by decide)
  · exact (roundtrip_amended toString parseU32 5 (by decide)).2.2 String
      (RelationalSelect.mk "0" [(5, "five")]) (by decide)

/-! ## Claim C8: parse purity and idempotence -/

/-- A `parse()` call on a `&self` receiver, modelled as returning the result
together with the (necessarily unchanged) receiver state. -/
def Scalar.parseCall {O : Type} (parseO : String → Except String O)
    (f : Scalar O) : Except Error O × Scalar O :=
  (f.parse parseO, f)

/-- A `parse()` call on a `&self` `Select` receiver. -/
def Select.parseCall {O : Type} [DecidableEq O]
    (parseO : String → Except String O) (f : Select O) :
    Except Error O × Select O :=
  (f.parse parseO, f)

/-- A `parse()` call on a `&self` `Month` receiver. -/
def MonthField.parseCall (f : MonthField) : Except Error ResMonth × MonthField :=
  (f.parse, f)

/-- A `parse()` call on a `&self` `TimeRange` receiver. -/
def TimeRangeField.parseCall {σ R : Type} (f : TimeRangeField σ R) :
    Except Error (ResTimeRange R) × TimeRangeField σ R :=
  (f.parse, f)

/-- Claim C8: `parse()` does not mutate stored state — the receiver after the
call (second component of `parseCall`, the state a `&self` method hands back)
is the starting state, so in particular the raw input is unchanged even when
the result is an error — and a second `parse()` without an intervening
`update`/`set_value` returns an identical result, for scalar, select, month
and time-range fields. -/
theorem parse_pure_idempotent {O σ R : Type} [DecidableEq O]
    (parseO : String → Except String O) (f : Scalar O) (s : Select O)
    (m : MonthField) (t : TimeRangeField σ R) :
    ((f.parseCall parseO).2 = f ∧ ((f.parseCall parseO).2).input = f.input ∧
      (((f.parseCall parseO).2).parseCall parseO).1 = (f.parseCall parseO).1) ∧
    ((s.parseCall parseO).2 = s ∧ ((s.parseCall parseO).2).input = s.input ∧
      (((s.parseCall parseO).2).parseCall parseO).1 = (s.parseCall parseO).1) ∧
    (m.parseCall.2 = m ∧ (m.parseCall.2).year.input = m.year.input ∧
      (m.parseCall.2).month.input = m.month.input ∧
      ((m.parseCall.2).parseCall).1 = m.parseCall.1) ∧
    (t.parseCall.2 = t ∧ (t.parseCall.2).length.input = t.length.input ∧
      ((t.parseCall.2).parseCall).1 = t.parseCall.1) :=
  ⟨⟨rfl, rfl, rfl⟩, ⟨rfl, rfl, rfl⟩, ⟨rfl, rfl, rfl, rfl⟩, ⟨rfl, rfl, rfl⟩⟩

/-! ## Claim C9: FormError map and Form aggregation -/

/-- `BTreeMap::get` on the name-keyed error map. -/
def mapLookup (nm : String) : List (String × Error) → Option Error
  | [] => none
  | (k, v) :: rest => if nm = k then some v else mapLookup nm rest

theorem mapLookup_mapInsert (k nm : String) (v : Error)
    (l : List (String × Error)) :
    mapLookup nm (mapInsert k v l) =
      if nm = k then some v else mapLookup nm l := by
  induction l with
  | nil =>
    by_cases h : nm = k <;> simp [mapInsert, mapLookup, h]
  | cons hd tl ih =>
    obtain ⟨k2, v2⟩ := hd
    unfold mapInsert
    by_cases h1 : k < k2
    · rw [if_pos h1]
      by_cases h : nm = k <;> simp [mapLookup, h]
    · rw [if_neg h1]
      by_cases h2 : k = k2
      · rw [if_pos h2]
        subst h2
        by_cases h : nm = k <;> simp [mapLookup, h]
      · rw [if_neg h2]
        by_cases h : nm = k2
        · subst h
          have hk : nm ≠ k := fun hc => h2 hc.symm
          simp [mapLookup, hk]
        · simp [mapLookup, h, ih]

theorem mapInsert_ne_nil (k : String) (v : Error) (l : List (String × Error)) :
    mapInsert k v l ≠ [] := by
  cases l with
  | nil => simp [mapInsert]
  | cons hd tl =>
    obtain ⟨k2, v2⟩ := hd
    unfold mapInsert
    by_cases h1 : k < k2
    · simp [h1]
    · rw [if_neg h1]
      by_cases h2 : k = k2 <;> simp [h2]

/-- Lookup after folding `add_result` over the remaining fields, for an
accumulator that has no binding for any remaining field name: a name maps to
an error exactly when its field errored, or when the accumulator already held
it and no remaining field mentions it. -/
theorem formCollect_go_lookup {T : Type} (fields : List (String × Except Error T))
    (acc : FormError) (nm : String) (e : Error)
    (hnodup : (fields.map Prod.fst).Nodup)
    (hdisj : ∀ k ∈ fields.map Prod.fst, mapLookup k acc.errors = none) :
    mapLookup nm (fields.foldl (fun a p => a.add_result p.1 p.2) acc).errors =
        some e ↔
      (nm, Except.error e) ∈ fields ∨
        (mapLookup nm acc.errors = some e ∧ nm ∉ fields.map Prod.fst) := by
  induction fields generalizing acc with
  | nil => simp
  | cons hd tl ih =>
    obtain ⟨k, r⟩ := hd
    have hk : k ∉ tl.map Prod.fst := by
      have h0 := hnodup
      simp only [List.map_cons, List.nodup_cons] at h0
      exact h0.1
    have htl : (tl.map Prod.fst).Nodup := by
      have h0 := hnodup
      simp only [List.map_cons, List.nodup_cons] at h0
      exact h0.2
    have hacck : mapLookup k acc.errors = none :=
      hdisj k (by simp)
    have hacc2 : ∀ k2 ∈ tl.map Prod.fst,
        mapLookup k2 (acc.add_result k r).errors = none := by
      intro k2 hk2
      have hne : k2 ≠ k := fun hc => hk (hc ▸ hk2)
      have hbase : mapLookup k2 acc.errors = none :=
        hdisj k2 (by simp [hk2])
      cases r with
      | ok a => exact hbase
      | error err =>
        unfold FormError.add_result
        rw [mapLookup_mapInsert, if_neg hne]
        exact hbase
    rw [List.foldl_cons]
    rw [ih (acc.add_result k r) htl hacc2]
    by_cases hnm : nm = k
    · subst hnm
      have hmem : (nm, Except.error e) ∉ tl := fun hc =>
        hk (List.mem_map_of_mem Prod.fst hc)
      constructor
      · rintro (hc | ⟨hc1, -⟩)
        · exact absurd hc hmem
        · cases r with
          | ok a =>
            rw [show acc.add_result nm (Except.ok a) = acc from rfl,
              hacck] at hc1
            exact absurd hc1 (by simp)
          | error err =>
            have hl : mapLookup nm
                (acc.add_result nm (Except.error err : Except Error T)).errors =
                some err := by
              unfold FormError.add_result
              rw [mapLookup_mapInsert, if_pos rfl]
            rw [hl] at hc1
            have he : err = e := Option.some.inj hc1
            subst he
            exact Or.inl (List.mem_cons_self _ _)
      · intro hc
        rcases hc with hc | ⟨hc1, hc2⟩
        · rcases List.mem_cons.mp hc with hc0 | hc0
          · have hr : Except.error e = r := congrArg Prod.snd hc0
            refine Or.inr ⟨?_, hk⟩
            rw [show r = Except.error e from hr.symm]
            unfold FormError.add_result
            rw [mapLookup_mapInsert, if_pos rfl]
          · exact absurd hc0 hmem
        · exfalso
          apply hc2
          simp
    · have hlook : mapLookup nm (acc.add_result k r).errors =
          mapLookup nm acc.errors := by
        cases r with
        | ok a => rfl
        | error err =>
          unfold FormError.add_result
          rw [mapLookup_mapInsert, if_neg hnm]
      rw [hlook]
      constructor
      · rintro (hc | ⟨hc1, hc2⟩)
        · exact Or.inl (List.mem_cons_of_mem _ hc)
        · refine Or.inr ⟨hc1, ?_⟩
          simp only [List.map_cons, List.mem_cons]
          rintro (hc3 | hc3)
          · exact hnm hc3
          · exact hc2 hc3
      · rintro (hc | ⟨hc1, hc2⟩)
        · rcases List.mem_cons.mp hc with hc0 | hc0
          · have h1 : nm = k := congrArg Prod.fst hc0
            exact absurd h1 hnm
          · exact Or.inl hc0
        · refine Or.inr ⟨hc1, ?_⟩
          intro hmem2
          apply hc2
          simp only [List.map_cons, List.mem_cons]
          exact Or.inr hmem2

/-- The folded error map is empty exactly when the accumulator was empty and
every remaining field parsed successfully. -/
theorem formCollect_go_empty {T : Type} (fields : List (String × Except Error T))
    (acc : FormError) :
    (fields.foldl (fun a p => a.add_result p.1 p.2) acc).errors = [] ↔
      acc.errors = [] ∧ ∀ p ∈ fields, ∃ a, p.2 = .ok a := by
  induction fields generalizing acc with
  | nil => simp
  | cons hd tl ih =>
    obtain ⟨k, r⟩ := hd
    rw [List.foldl_cons, ih (acc.add_result k r)]
    cases r with
    | ok a =>
      simp only [FormError.add_result, List.mem_cons]
      constructor
      · rintro ⟨h1, h2⟩
        refine ⟨h1, ?_⟩
        rintro p (rfl | hp)
        · exact ⟨a, rfl⟩
        · exact h2 p hp
      · rintro ⟨h1, h2⟩
        exact ⟨h1, fun p hp => h2 p (Or.inr hp)⟩
    | error err =>
      simp only [FormError.add_result, List.mem_cons]
      constructor
      · rintro ⟨h1, -⟩
        exact absurd h1 (mapInsert_ne_nil k err acc.errors)
      · rintro ⟨-, h2⟩
        obtain ⟨a, ha⟩ := h2 (k, Except.error err) (Or.inl rfl)
        exact Except.noConfusion ha

/-- Claim C9: with distinct field names, a name maps to an error in the map
built by `add_result` over all fields exactly when that field's parse result
was that error (absence means success); `formParse` — which attempts every
named field unconditionally — returns an assembled output exactly when every
field succeeded, and that output pairs each name with its parsed value. -/
theorem form_parse_spec {T : Type} (fields : List (String × Except Error T))
    (hnodup : (fields.map Prod.fst).Nodup) :
    (∀ nm e, mapLookup nm (formCollect fields).errors = some e ↔
      (nm, Except.error e) ∈ fields) ∧
    ((∃ out, formParse fields = .ok out) ↔ ∀ p ∈ fields, ∃ a, p.2 = .ok a) ∧
    (∀ out, formParse fields = .ok out →
      out = fields.filterMap (fun p => match p.2 with
        | .ok a => some (p.1, a)
        | .error _ => none)) := by
  have hempty : (formCollect fields).errors = [] ↔
      ∀ p ∈ fields, ∃ a, p.2 = .ok a := by
    unfold formCollect
    rw [formCollect_go_empty fields FormError.new]
    simp [FormError.new]
  refine ⟨?_, ?_, ?_⟩
  · intro nm e
    unfold formCollect
    rw [formCollect_go_lookup fields FormError.new nm e hnodup
      (fun k _ => rfl)]
    simp [FormError.new, mapLookup]
  · unfold formParse FormError.is_empty
    by_cases h : (formCollect fields).errors.isEmpty
    · rw [if_pos h]
      rw [List.isEmpty_iff] at h
      exact iff_of_true ⟨_, rfl⟩ (hempty.mp h)
    · rw [if_neg h]
      rw [List.isEmpty_iff] at h
      constructor
      · rintro ⟨out, hc⟩
        exact Except.noConfusion hc
      · intro hall
        exact absurd (hempty.mpr hall) h
  · intro out hout
    unfold formParse FormError.is_empty at hout
    by_cases h : (formCollect fields).errors.isEmpty
    · rw [if_pos h] at hout
      exact (Except.ok.inj hout).symm
    · rw [if_neg h] at hout
      exact Except.noConfusion hout

/-- The spec example: fields a and c fail, b succeeds. -/
def exFields : List (String × Except Error Nat) :=
  [("a", .error (Error.parse "x")), ("b", .ok 1),
   ("c", .error (Error.validation ["v"]))]

/-- Witness for C9: in the example form, name c maps to exactly its field's
error even though field a failed first, name b is absent, and the form does
not produce an output. -/
theorem form_parse_spec_witness :
    mapLookup "c" (formCollect exFields).errors =
      some (Error.validation ["v"]) ∧
    (∀ e, mapLookup "b" (formCollect exFields).errors ≠ some e) ∧
    ¬ ∃ out, formParse exFields = .ok out := by
  refine ⟨?_, ?_, ?_⟩
  · exact ((form_parse_spec exFields (by decide)).1 "c"
      (Error.validation ["v"])).mpr (by decide)
  · intro e he
    have hmem := ((form_parse_spec exFields (by decide)).1 "b" e).mp he
    simp only [exFields, List.mem_cons, List.not_mem_nil, or_false] at hmem
    rcases hmem with h1 | h1 | h1
    · have h2 : ("b" : String) = "a" := congrArg Prod.fst h1
      exact absurd h2 (by decide)
    · exact Except.noConfusion (congrArg Prod.snd h1)
    · have h2 : ("b" : String) = "c" := congrArg Prod.fst h1
      exact absurd h2 (by decide)
  · intro hout
    have hall := ((form_parse_spec exFields (by decide)).2.1).mp hout
    obtain ⟨a, ha⟩ := hall ("a", Except.error (Error.parse "x")) (by decide)
    exact Except.noConfusion ha

end Input
